import Mathlib

/-!
Verification of the university schedule generator
(`core/schedule_generator.py` of a26work/university-schedule-generator).

Shallow embedding conventions:
* times of day ("HH:MM" strings in the source) are minutes since midnight (`Nat`);
* Python dicts are ordered association lists (`List (key × value)`), looked up
  with `List.lookup` (first match, matching unique-key dict semantics);
* Python float arithmetic is modelled exactly: rational expressions as `ℚ`,
  and the square roots appearing in `_is_level_schedule_balanced` via
  `Real.sqrt`, so candidate scores live in `ℝ`;
* truthy checks become `Bool`s; `None`-returning helpers return `Option`.
-/

namespace SchedGen

/-- `TimeSlot` from the source: a day label with start/end times.
Times are minutes since midnight (the source stores "HH:MM" strings and
compares the parsed `datetime` values, which is the same order). -/
structure TimeSlot where
  day : String
  start_time : Nat
  end_time : Nat
deriving DecidableEq

/-- `TimeSlot.overlaps`: same day and intersecting half-open ranges
(the source tests `not (self._end_dt <= other._start_dt or other._end_dt <= self._start_dt)`). -/
def TimeSlot.overlaps (a b : TimeSlot) : Bool :=
  a.day == b.day && !(decide (a.end_time ≤ b.start_time) || decide (b.end_time ≤ a.start_time))

/-- `TimeSlot.get_minutes_difference`: `none` if the days differ, the signed
gap in minutes if one slot ends before the other starts, `0` if they overlap. -/
def TimeSlot.get_minutes_difference (a b : TimeSlot) : Option Int :=
  if a.day ≠ b.day then none
  else if a.end_time ≤ b.start_time then some ((b.start_time : Int) - (a.end_time : Int))
  else if b.end_time ≤ a.start_time then some (-((a.start_time : Int) - (b.end_time : Int)))
  else some 0

/-- `ScheduleSection` from the source. -/
structure ScheduleSection where
  course_id : String
  section_number : Nat
  professor_id : String
  hall_id : String
  time_slot : TimeSlot
deriving DecidableEq

/-- One record of the serialized output of `ScheduleGenerator.generate`:
exactly the seven fields the source emits. -/
structure OutRecord where
  course_id : String
  section_number : Nat
  professor_id : String
  hall_id : String
  day : String
  start_time : Nat
  end_time : Nat
deriving DecidableEq

/-- Serialization of one section, as in the result loop of `generate`. -/
def sectionToRecord (s : ScheduleSection) : OutRecord :=
  { course_id := s.course_id
    section_number := s.section_number
    professor_id := s.professor_id
    hall_id := s.hall_id
    day := s.time_slot.day
    start_time := s.time_slot.start_time
    end_time := s.time_slot.end_time }

/-- The input document accepted by `load_data` (post `data.get(...)` defaulting:
every field is present, absent optional fields are the empty list). -/
structure InputData where
  halls : List String
  school_days : List String
  departments : List String
  professors : List String
  courses : List String
  level_courses : List (String × List String)
  department_courses : List (String × List String)
  professor_specialties : List (String × List String)
  professor_preferred_courses : List (String × List String)
  professor_preferred_times : List (String × List TimeSlot)
  course_preferred_times : List (String × String)
  restricted_times : List TimeSlot
  days_with_hours : List (String × Nat × Nat)
  course_lecture_durations : List (String × Nat)
  course_sections_count : List (String × Nat)

/-- The mutable fields of a `ScheduleGenerator` instance. -/
structure GenState where
  halls : List String
  school_days : List String
  departments : List String
  professors : List String
  courses : List String
  level_courses : List (String × List String)
  department_courses : List (String × List String)
  professor_specialties : List (String × List String)
  professor_preferred_courses : List (String × List String)
  professor_preferred_times : List (String × List TimeSlot)
  course_preferred_times : List (String × String)
  restricted_times : List TimeSlot
  days_with_hours : List (String × Nat × Nat)
  course_lecture_durations : List (String × Nat)
  course_sections_count : List (String × Nat)
  professor_courses : List (String × List String)
  course_professors : List (String × List String)
  restricted_time_slots : List TimeSlot

/-- The state `__init__` builds: every container empty. -/
def initState : GenState :=
  { halls := [], school_days := [], departments := [], professors := [], courses := []
    level_courses := [], department_courses := [], professor_specialties := []
    professor_preferred_courses := [], professor_preferred_times := []
    course_preferred_times := [], restricted_times := [], days_with_hours := []
    course_lecture_durations := [], course_sections_count := []
    professor_courses := [], course_professors := [], restricted_time_slots := [] }

/-- `defaultdict(list)`-style append used by `_precompute_course_professor_mappings`:
append `v` to the list stored at `k`, creating the entry if missing. -/
def addPair (m : List (String × List String)) (k v : String) : List (String × List String) :=
  match m with
  | [] => [(k, [v])]
  | (k', vs) :: rest => if k' = k then (k', vs ++ [v]) :: rest else (k', vs) :: addPair rest k v

/-- Value stored at `k` (empty when absent), i.e. `d.get(k, [])`. -/
def getList (m : List (String × List String)) (k : String) : List String :=
  (m.lookup k).getD []

/-- `_precompute_course_professor_mappings`: first walk professor specialties,
appending every course of each specialty department to both maps, then walk
explicitly preferred courses, appending those the professor cannot already
teach.  Returns `(professor_courses, course_professors)`. -/
def precomputeMappings (d : InputData) :
    List (String × List String) × List (String × List String) :=
  let bySpecialty :=
    d.professor_specialties.foldl
      (fun acc pr =>
        pr.2.foldl
          (fun acc sp =>
            (getList d.department_courses sp).foldl
              (fun acc c => (addPair acc.1 pr.1 c, addPair acc.2 c pr.1)) acc)
          acc)
      ([], [])
  d.professor_preferred_courses.foldl
    (fun acc pr =>
      pr.2.foldl
        (fun acc c =>
          if c ∈ getList acc.1 pr.1 then acc
          else (addPair acc.1 pr.1 c, addPair acc.2 c pr.1))
        acc)
    bySpecialty

/-- `load_data`: overwrite every field of the generator from the input and
run both precomputations (`_precompute_course_professor_mappings` and
`_precompute_restricted_time_slots`). -/
def loadData (_st : GenState) (d : InputData) : GenState :=
  { halls := d.halls, school_days := d.school_days, departments := d.departments
    professors := d.professors, courses := d.courses
    level_courses := d.level_courses, department_courses := d.department_courses
    professor_specialties := d.professor_specialties
    professor_preferred_courses := d.professor_preferred_courses
    professor_preferred_times := d.professor_preferred_times
    course_preferred_times := d.course_preferred_times
    restricted_times := d.restricted_times
    days_with_hours := d.days_with_hours
    course_lecture_durations := d.course_lecture_durations
    course_sections_count := d.course_sections_count
    professor_courses := (precomputeMappings d).1
    course_professors := (precomputeMappings d).2
    restricted_time_slots := d.restricted_times }

/-- The while-loop body of `_generate_time_slots` for one day, with an explicit
fuel argument: starting from `cur`, while `cur + dur ≤ endM`, emit the slot
`[cur, cur + dur)` unless it overlaps a restricted slot, then advance by
`dur + 5`.  Since `cur` strictly increases, fuel `endM + 1` (supplied by
`slotsForDay`) can never run out before the loop condition fails. -/
def slotsFrom (restricted : List TimeSlot) (day : String) (dur endM : Nat) :
    Nat → Nat → List TimeSlot
  | 0, _ => []
  | fuel + 1, cur =>
    if cur + dur ≤ endM then
      let slot : TimeSlot := ⟨day, cur, cur + dur⟩
      (if restricted.any (fun r => slot.overlaps r) then [] else [slot]) ++
        slotsFrom restricted day dur endM fuel (cur + dur + 5)
    else []

/-- All candidate slots of one `days_with_hours` entry. -/
def slotsForDay (restricted : List TimeSlot) (day : String) (startM endM dur : Nat) :
    List TimeSlot :=
  slotsFrom restricted day dur endM (endM + 1) startM

/-- `_generate_time_slots`: lecture duration is the declared one (default 60);
iterate the `days_with_hours` entries in order, generating the per-day slots. -/
def generateTimeSlots (st : GenState) (course_id : String) : List TimeSlot :=
  let dur := (st.course_lecture_durations.lookup course_id).getD 60
  st.days_with_hours.flatMap
    (fun e => slotsForDay st.restricted_time_slots e.1 e.2.1 e.2.2 dur)

/-- `_is_professor_available`: no existing section of this professor overlaps
the slot. -/
def isProfessorAvailable (professor_id : String) (slot : TimeSlot)
    (sched : List ScheduleSection) : Bool :=
  !sched.any (fun s => s.professor_id == professor_id && s.time_slot.overlaps slot)

/-- `_is_hall_available`. -/
def isHallAvailable (hall_id : String) (slot : TimeSlot)
    (sched : List ScheduleSection) : Bool :=
  !sched.any (fun s => s.hall_id == hall_id && s.time_slot.overlaps slot)

/-- `_is_professor_preferred_time`: vacuously true when the professor declares
no windows; otherwise true iff the slot sits inside some declared window of the
same day. -/
def isProfessorPreferredTime (st : GenState) (professor_id : String)
    (slot : TimeSlot) : Bool :=
  match st.professor_preferred_times.lookup professor_id with
  | none => true
  | some prefs =>
    prefs.isEmpty ||
      prefs.any (fun p =>
        slot.day == p.day && decide (p.start_time ≤ slot.start_time) &&
          decide (slot.end_time ≤ p.end_time))

/-- Count of sections already assigned to a professor. -/
def professorLoad (professor_id : String) (sched : List ScheduleSection) : Nat :=
  sched.countP (fun s => s.professor_id == professor_id)

/-- First department whose course list contains the course (the source scans
`department_courses` and breaks at the first hit). -/
def findCourseDept (st : GenState) (course_id : String) : Option String :=
  st.department_courses.findSome? (fun pr => if course_id ∈ pr.2 then some pr.1 else none)

/-- The suitability score of one professor in `_find_suitable_professor`:
+30 for an explicitly preferred course, +20 when the course's department is one
of the professor's specialties (the source's truthiness test also rejects an
empty department name), +10 for a preferred time, −2 per already-assigned
section. -/
def professorScore (st : GenState) (course_id professor_id : String) (slot : TimeSlot)
    (sched : List ScheduleSection) : Int :=
  (if (st.professor_preferred_courses.lookup professor_id).getD [] |>.contains course_id
    then 30 else 0) +
  (match findCourseDept st course_id with
   | some dept =>
     if dept ≠ "" ∧ dept ∈ (st.professor_specialties.lookup professor_id).getD []
     then 20 else 0
   | none => 0) +
  (if isProfessorPreferredTime st professor_id slot then 10 else 0) -
  2 * (professorLoad professor_id sched : Int)

/-- First element of maximal score: the head of Python's stable descending
sort of the scored candidate list (replace the running best only on a strictly
greater score). -/
def pickTopScored (l : List (String × Int)) : Option String :=
  (l.foldl
    (fun best cand =>
      match best with
      | none => some cand
      | some b => if b.2 < cand.2 then some cand else some b)
    none).map Prod.fst

/-- `_find_suitable_professor`: candidates are the precomputed qualified
professors (all professors when that list is empty), filtered to the available
ones, scored, and the stable-descending-sort head is returned. -/
def findSuitableProfessor (st : GenState) (course_id : String) (slot : TimeSlot)
    (sched : List ScheduleSection) : Option String :=
  let candidates :=
    let qualified := getList st.course_professors course_id
    if qualified.isEmpty then st.professors else qualified
  pickTopScored
    (candidates.filterMap
      (fun p =>
        if isProfessorAvailable p slot sched
        then some (p, professorScore st course_id p slot sched)
        else none))

/-- First element of minimal usage: the head of Python's stable ascending sort
of `(hall, usage)` pairs. -/
def pickLeastUsed (l : List (String × Nat)) : Option String :=
  (l.foldl
    (fun best cand =>
      match best with
      | none => some cand
      | some b => if cand.2 < b.2 then some cand else some b)
    none).map Prod.fst

/-- Number of sections already using a hall. -/
def hallUsage (hall_id : String) (sched : List ScheduleSection) : Nat :=
  sched.countP (fun s => s.hall_id == hall_id)

/-- `_find_suitable_hall`: among the declared halls that are free at the slot,
the least used one (ties broken by hall declaration order). -/
def findSuitableHall (st : GenState) (slot : TimeSlot)
    (sched : List ScheduleSection) : Option String :=
  pickLeastUsed
    (st.halls.filterMap
      (fun h =>
        if isHallAvailable h slot sched then some (h, hallUsage h sched) else none))

/-- `_evaluate_time_preference`: 0.5 without a declared preference; otherwise
the day is split into thirds (early/middle/late) between its operating hours
(defaults 08:00–18:00 when the slot's day is undeclared) and the match earns
1.0, an adjacent-to-middle mismatch 0.5, and the opposite extreme 0.2. -/
def evaluateTimePreference (st : GenState) (course_id : String) (slot : TimeSlot) : ℚ :=
  match st.course_preferred_times.lookup course_id with
  | none => 1/2
  | some pref =>
    let t : ℚ := (slot.start_time : ℚ) / 60
    let w := (st.days_with_hours.lookup slot.day).getD (480, 1080)
    let ds : ℚ := (w.1 : ℚ) / 60
    let de : ℚ := (w.2 : ℚ) / 60
    let dayDur := de - ds
    let earlyEnd := ds + dayDur / 3
    let middleEnd := ds + 2 * dayDur / 3
    let tod := if t < earlyEnd then "early" else if t < middleEnd then "middle" else "late"
    if pref = tod then 1
    else if pref = "early" then (if tod = "middle" then 1/2 else 1/5)
    else if pref = "middle" then 1/2
    else if tod = "middle" then 1/2 else 1/5

/-- `_are_sections_well_distributed`: 1.0 for a course's first section or a
single-section course; otherwise one minus the variance of the per-day counts
(after hypothetically adding the candidate) over the source's estimated
maximum variance, blended 75/25 with a same-day spacing factor when the
candidate's day already holds a section of the course.  Rational arithmetic is
exact; a division by zero (empty `school_days`, where Python would raise)
yields 0 in `ℚ`. -/
def areSectionsWellDistributed (st : GenState) (course_id : String) (slot : TimeSlot)
    (sched : List ScheduleSection) : ℚ :=
  let courseSections := sched.filter (fun s => s.course_id == course_id)
  let totalNeeded := (st.course_sections_count.lookup course_id).getD 1
  if courseSections.isEmpty then 1
  else if totalNeeded = 1 then 1
  else
    let csDays := courseSections.map (fun s => s.time_slot.day)
    let dayKeys := (csDays ++ [slot.day]).eraseDups
    let countOn := fun d => (csDays.count d + if slot.day = d then 1 else 0 : ℚ)
    let ideal : ℚ := (totalNeeded : ℚ) / (st.school_days.length : ℚ)
    let variance := (dayKeys.map (fun d => (countOn d - ideal) ^ 2)).sum
    let maxVariance :=
      ((totalNeeded : ℚ) - ideal) ^ 2 + ((st.school_days.length : ℚ) - 1) * ideal ^ 2
    if maxVariance = 0 then 1
    else
      let distScore := 1 - variance / maxVariance
      if 1 < countOn slot.day then
        let sameDay := courseSections.filter (fun s => s.time_slot.day == slot.day)
        let minSpacing :=
          ((sameDay.map
              (fun s => ((slot.get_minutes_difference s.time_slot).getD 0).natAbs)).min?).getD 0
        let spacingFactor := min ((minSpacing : ℚ) / 120) 1
        3/4 * distScore + 1/4 * spacingFactor
      else distScore

/-- The four rational statistics computed by `_is_level_schedule_balanced`:
mean and variance of the per-school-day counts of the level's sections (after
hypothetically adding the candidate; the `day_counts` dict holds each distinct
school day once), and mean and variance of the morning/afternoon/evening
counts on the candidate's day.  Bands: start hour < 12, < 17, otherwise
evening.  A division by zero (no school days, where Python would raise)
yields 0 in `ℚ`. -/
structure LevelStats where
  avg : ℚ
  variance : ℚ
  todAvg : ℚ
  todVariance : ℚ
deriving DecidableEq

/-- See `LevelStats`. -/
def levelBalanceStats (st : GenState) (level _course_id : String) (slot : TimeSlot)
    (sched : List ScheduleSection) : LevelStats :=
  let lvCourses := getList st.level_courses level
  let days := st.school_days.eraseDups
  let countOn := fun (d : String) =>
    (sched.countP (fun s => s.course_id ∈ lvCourses && s.time_slot.day == d) +
      if slot.day = d then 1 else 0 : ℚ)
  let n : ℚ := (days.length : ℚ)
  let avg : ℚ := (days.map countOn).sum / n
  let variance : ℚ := ((days.map (fun d => (countOn d - avg) ^ 2)).sum) / n
  let onDay := sched.filter
    (fun s => s.course_id ∈ lvCourses && s.time_slot.day == slot.day)
  let band := fun (startM : Nat) =>
    if startM / 60 < 12 then 0 else if startM / 60 < 17 then 1 else 2
  let todCount := fun (b : Nat) =>
    ((onDay.countP (fun s => band s.time_slot.start_time == b)) +
      if band slot.start_time = b then 1 else 0 : ℚ)
  let todAvg : ℚ := (todCount 0 + todCount 1 + todCount 2) / 3
  let todVariance : ℚ :=
    ((todCount 0 - todAvg) ^ 2 + (todCount 1 - todAvg) ^ 2 + (todCount 2 - todAvg) ^ 2) / 3
  ⟨avg, variance, todAvg, todVariance⟩

/-- `_is_level_schedule_balanced`: 1.0 when the course is not in the level,
or when the day-count average (the source's `max_imbalance`) is zero;
otherwise `0.7 × (1 − stddev/avg)` over the per-day counts plus
`0.3 × (1 − stddev/avg)` over the time-of-day counts (the latter 1.0 when its
average is zero).  The square roots force `ℝ`. -/
noncomputable def isLevelScheduleBalanced (st : GenState) (level course_id : String)
    (slot : TimeSlot) (sched : List ScheduleSection) : ℝ :=
  if course_id ∉ getList st.level_courses level then 1
  else
    let s := levelBalanceStats st level course_id slot sched
    if s.avg = 0 then 1
    else
      0.7 * (1 - Real.sqrt (s.variance : ℝ) / (s.avg : ℝ)) +
        0.3 * (if s.todAvg = 0 then (1 : ℝ)
          else 1 - Real.sqrt (s.todVariance : ℝ) / (s.todAvg : ℝ))

/-- The professor-preference sub-score of `_evaluate_candidate`. -/
def professorPreferenceScore (st : GenState) (course_id professor_id : String)
    (slot : TimeSlot) : ℚ :=
  let prefTime := isProfessorPreferredTime st professor_id slot
  let prefCourse := (st.professor_preferred_courses.lookup professor_id).getD []
    |>.contains course_id
  if prefTime ∧ prefCourse then 1
  else if prefTime then 7/10
  else if prefCourse then 3/5
  else 3/10

/-- The hall-utilization sub-score of `_evaluate_candidate`: 1.0 when the
hall's usage is at most the mean usage (or the schedule/hall list is empty),
otherwise decaying linearly, floored at 0. -/
def hallUtilizationScore (st : GenState) (hall_id : String)
    (sched : List ScheduleSection) : ℚ :=
  let avgUsage : ℚ :=
    if st.halls.isEmpty then 0 else (sched.length : ℚ) / (st.halls.length : ℚ)
  if avgUsage = 0 then 1
  else
    let r := (hallUsage hall_id sched : ℚ) / avgUsage
    if r ≤ 1 then 1 else max 0 (1 - (r - 1) / 2)

/-- The gaps sub-score of `_evaluate_candidate`: 1.0 when the professor has no
same-day section or no same-day gap strictly between 0 and 60 minutes,
otherwise the smallest such gap over 60 (capped at 1). -/
def gapsScore (professor_id : String) (slot : TimeSlot)
    (sched : List ScheduleSection) : ℚ :=
  let profSections := sched.filter
    (fun s => s.professor_id == professor_id && s.time_slot.day == slot.day)
  if profSections.isEmpty then 1
  else
    let smallGaps := profSections.filterMap
      (fun s =>
        (slot.get_minutes_difference s.time_slot).bind
          (fun g => if 0 < g.natAbs ∧ g.natAbs < 60 then some g.natAbs else none))
    match smallGaps.min? with
    | none => 1
    | some m => min ((m : ℚ) / 60) 1

/-- `_evaluate_candidate`: the fixed convex combination
0.20·time + 0.25·distribution + 0.20·level + 0.15·professor + 0.10·hall +
0.10·gaps, with a neutral 0.5 level sub-score when the course has no level. -/
noncomputable def evaluateCandidate (st : GenState) (course_id : String) (slot : TimeSlot)
    (professor_id hall_id : String) (sched : List ScheduleSection)
    (course_level : Option String) : ℝ :=
  let levelScore : ℝ :=
    match course_level with
    | some lv => isLevelScheduleBalanced st lv course_id slot sched
    | none => 0.5
  0.20 * (evaluateTimePreference st course_id slot : ℝ) +
    0.25 * (areSectionsWellDistributed st course_id slot sched : ℝ) +
    0.20 * levelScore +
    0.15 * (professorPreferenceScore st course_id professor_id slot : ℝ) +
    0.10 * (hallUtilizationScore st hall_id sched : ℝ) +
    0.10 * (gapsScore professor_id slot sched : ℝ)

/-- The course priority of `generate_schedule`:
`sections × 1000` when no qualified professor exists, else
`sections × (100 / qualified-count)` (exact rational arithmetic). -/
def coursePriority (st : GenState) (course_id : String) : ℚ :=
  let s : ℚ := ((st.course_sections_count.lookup course_id).getD 1 : ℚ)
  let p := (getList st.course_professors course_id).length
  if p = 0 then s * 1000 else s * (100 / (p : ℚ))

/-- The order realised by Python's stable `sorted(..., key=priority,
reverse=True)` on index-tagged courses: strictly higher priority first, ties
by declaration index. -/
def priorityOrder (st : GenState) (a b : Nat × String) : Prop :=
  coursePriority st b.2 < coursePriority st a.2 ∨
    (coursePriority st a.2 = coursePriority st b.2 ∧ a.1 ≤ b.1)

instance (st : GenState) : DecidableRel (priorityOrder st) := fun _ _ => by
  unfold priorityOrder; exact inferInstance

/-- The courses in processing order, tagged with their declaration index.
Python's stable descending sort yields the unique permutation sorted by
(priority descending, declaration index ascending), which insertion sort
over that total order also produces. -/
def sortedCoursesIdx (st : GenState) : List (Nat × String) :=
  List.insertionSort (priorityOrder st) st.courses.enum

/-- `sorted_courses` of `generate_schedule`. -/
def sortedCourses (st : GenState) : List String :=
  (sortedCoursesIdx st).map Prod.snd

/-- The level of a course: first level whose course list contains it. -/
def findLevel (st : GenState) (course_id : String) : Option String :=
  st.level_courses.findSome? (fun pr => if course_id ∈ pr.2 then some pr.1 else none)

/-- One iteration of the candidate scan in `generate_schedule`: find a
professor and hall for the slot, score the triple, and replace the running
best only on a strictly greater score. -/
noncomputable def scanStep (st : GenState) (course_id : String) (level : Option String)
    (sched : List ScheduleSection)
    (acc : Option (TimeSlot × String × String) × ℝ) (slot : TimeSlot) :
    Option (TimeSlot × String × String) × ℝ :=
  match findSuitableProfessor st course_id slot sched with
  | none => acc
  | some p =>
    match findSuitableHall st slot sched with
    | none => acc
    | some h =>
      if acc.2 < evaluateCandidate st course_id slot p h sched level
      then (some (slot, p, h), evaluateCandidate st course_id slot p h sched level)
      else acc

/-- The inner candidate scan of `generate_schedule`: over all remaining slots,
keep the first strictly best candidate; the running best score starts at −1. -/
noncomputable def scanSlots (st : GenState) (course_id : String) (level : Option String)
    (slots : List TimeSlot) (sched : List ScheduleSection) :
    Option (TimeSlot × String × String) :=
  (slots.foldl (scanStep st course_id level sched)
    ((none : Option (TimeSlot × String × String)), (-1 : ℝ))).1

/-- The per-course while loop of `generate_schedule`: while sections remain to
create and candidate slots remain, run the scan; on success append the new
section (numbered `created + 1`) and retire the consumed slot, otherwise stop
this course.  Structural recursion on the remaining count. -/
noncomputable def sectionsLoop (st : GenState) (course_id : String) (level : Option String) :
    Nat → Nat → List TimeSlot → List ScheduleSection → List ScheduleSection
  | _, 0, _, sched => sched
  | created, rem + 1, slots, sched =>
    if slots.isEmpty then sched
    else
      match scanSlots st course_id level slots sched with
      | none => sched
      | some (slot, p, h) =>
        sectionsLoop st course_id level (created + 1) rem (slots.erase slot)
          (sched ++ [⟨course_id, created + 1, p, h, slot⟩])

/-- `generate_schedule`: process the courses in priority order, the schedule
accumulating across courses. -/
noncomputable def generateSchedule (st : GenState) : List ScheduleSection :=
  (sortedCourses st).foldl
    (fun sched course_id =>
      sectionsLoop st course_id (findLevel st course_id) 0
        ((st.course_sections_count.lookup course_id).getD 1)
        (generateTimeSlots st course_id) sched)
    []

/-- The serialization loop at the end of `generate`. -/
noncomputable def generateOut (st : GenState) : List OutRecord :=
  (generateSchedule st).map sectionToRecord

/-- `ScheduleGenerator.generate`: load the data over whatever state the
generator holds, build the schedule, serialize it. -/
noncomputable def generate (g : GenState) (d : InputData) : List OutRecord :=
  generateOut (loadData g d)

/-! ### Executable twin of the pipeline

`evaluateCandidate` is real-valued only through the level-balance square
roots.  When the input declares no levels, every course's level is `none`, the
level sub-score is the constant 0.5, and the whole pipeline computes with
rationals.  The `...Q` definitions below are that rational specialization;
`generateSchedule_eq_q` proves them equal to the model on level-free states,
which lets concrete runs be evaluated by kernel reduction. -/

/-- `evaluateCandidate` with the `course_level = none` branch taken
(weights written as exact rationals). -/
def evaluateCandidateQ (st : GenState) (course_id : String) (slot : TimeSlot)
    (professor_id hall_id : String) (sched : List ScheduleSection) : ℚ :=
  1/5 * evaluateTimePreference st course_id slot +
    1/4 * areSectionsWellDistributed st course_id slot sched +
    1/5 * (1/2) +
    3/20 * professorPreferenceScore st course_id professor_id slot +
    1/10 * hallUtilizationScore st hall_id sched +
    1/10 * gapsScore professor_id slot sched

/-- `scanStep` over the rational scores. -/
def scanStepQ (st : GenState) (course_id : String) (sched : List ScheduleSection)
    (acc : Option (TimeSlot × String × String) × ℚ) (slot : TimeSlot) :
    Option (TimeSlot × String × String) × ℚ :=
  match findSuitableProfessor st course_id slot sched with
  | none => acc
  | some p =>
    match findSuitableHall st slot sched with
    | none => acc
    | some h =>
      if acc.2 < evaluateCandidateQ st course_id slot p h sched
      then (some (slot, p, h), evaluateCandidateQ st course_id slot p h sched)
      else acc

/-- `scanSlots` over the rational scores. -/
def scanSlotsQ (st : GenState) (course_id : String)
    (slots : List TimeSlot) (sched : List ScheduleSection) :
    Option (TimeSlot × String × String) :=
  (slots.foldl (scanStepQ st course_id sched)
    ((none : Option (TimeSlot × String × String)), (-1 : ℚ))).1

/-- `sectionsLoop` over the rational scan. -/
def sectionsLoopQ (st : GenState) (course_id : String) :
    Nat → Nat → List TimeSlot → List ScheduleSection → List ScheduleSection
  | _, 0, _, sched => sched
  | created, rem + 1, slots, sched =>
    if slots.isEmpty then sched
    else
      match scanSlotsQ st course_id slots sched with
      | none => sched
      | some (slot, p, h) =>
        sectionsLoopQ st course_id (created + 1) rem (slots.erase slot)
          (sched ++ [⟨course_id, created + 1, p, h, slot⟩])

/-- `generate_schedule` over the rational scan. -/
def generateScheduleQ (st : GenState) : List ScheduleSection :=
  (sortedCourses st).foldl
    (fun sched course_id =>
      sectionsLoopQ st course_id 0
        ((st.course_sections_count.lookup course_id).getD 1)
        (generateTimeSlots st course_id) sched)
    []

/-! ### Derived notions used in the statements -/

/-- Sections of one course in a schedule. -/
def countCourse (course_id : String) (sched : List ScheduleSection) : Nat :=
  sched.countP (fun s => s.course_id == course_id)

/-- Two sections never double-book a professor or a hall. -/
def noClash (a b : ScheduleSection) : Prop :=
  (a.professor_id = b.professor_id → a.time_slot.overlaps b.time_slot = false) ∧
    (a.hall_id = b.hall_id → a.time_slot.overlaps b.time_slot = false)

/-- `noClash` on serialized records (intervals reassembled from the record
fields). -/
def recordNoClash (a b : OutRecord) : Prop :=
  (a.professor_id = b.professor_id →
    TimeSlot.overlaps ⟨a.day, a.start_time, a.end_time⟩ ⟨b.day, b.start_time, b.end_time⟩ =
      false) ∧
  (a.hall_id = b.hall_id →
    TimeSlot.overlaps ⟨a.day, a.start_time, a.end_time⟩ ⟨b.day, b.start_time, b.end_time⟩ =
      false)

/-! ### Concrete instances used by scenario runs, counterexamples and
witnesses -/

/-- One hall, one professor, two one-section courses, Monday fitting exactly
one hour-long slot and Tuesday fitting two.  The greedy pass puts course "A"
on Monday and course "B" on Tuesday 08:00, leaving Tuesday 09:05 free for
"A". -/
def inC2 : InputData :=
  { halls := ["H"], school_days := ["Mon", "Tue"], departments := ["D"]
    professors := ["P"], courses := ["A", "B"]
    level_courses := [], department_courses := [("D", ["A", "B"])]
    professor_specialties := [("P", ["D"])]
    professor_preferred_courses := [], professor_preferred_times := []
    course_preferred_times := [], restricted_times := []
    days_with_hours := [("Mon", (480, 540)), ("Tue", (480, 605))]
    course_lecture_durations := [], course_sections_count := [("A", 1), ("B", 1)] }

/-- The generator state after loading `inC2`. -/
def stC2 : GenState := loadData initState inC2

/-- A level containing course "A" with three school days, and two sections of
"A" already on Monday morning. -/
def inC3 : InputData :=
  { halls := ["H"], school_days := ["Mon", "Tue", "Wed"], departments := ["D"]
    professors := ["P"], courses := ["A"]
    level_courses := [("L", ["A"])], department_courses := [("D", ["A"])]
    professor_specialties := [("P", ["D"])]
    professor_preferred_courses := [], professor_preferred_times := []
    course_preferred_times := [], restricted_times := []
    days_with_hours := [("Mon", (480, 1080))]
    course_lecture_durations := [], course_sections_count := [("A", 3)] }

/-- The generator state after loading `inC3`. -/
def stC3 : GenState := loadData initState inC3

/-- Two Monday-morning sections of course "A". -/
def schedC3 : List ScheduleSection :=
  [⟨"A", 1, "P", "H", ⟨"Mon", 480, 540⟩⟩, ⟨"A", 2, "P", "H", ⟨"Mon", 545, 605⟩⟩]

/-- A third Monday-morning candidate slot for course "A". -/
def slotC3 : TimeSlot := ⟨"Mon", 610, 670⟩

/-- A single 08:00–12:15 Monday with a restricted block 09:05–10:05 that
knocks out the second candidate slot. -/
def inC4 : InputData :=
  { halls := ["H"], school_days := ["Mon"], departments := []
    professors := ["P"], courses := ["A"]
    level_courses := [], department_courses := []
    professor_specialties := [], professor_preferred_courses := []
    professor_preferred_times := [], course_preferred_times := []
    restricted_times := [⟨"Mon", 545, 605⟩]
    days_with_hours := [("Mon", (480, 735))]
    course_lecture_durations := [], course_sections_count := [("A", 1)] }

/-- The generator state after loading `inC4`. -/
def stC4 : GenState := loadData initState inC4

/-- Scenario B: one hall, one day with room for exactly one slot, two equally
eligible professors, two one-section courses of equal priority. -/
def inB : InputData :=
  { halls := ["H"], school_days := ["Mon"], departments := ["D"]
    professors := ["P1", "P2"], courses := ["A", "B"]
    level_courses := [], department_courses := [("D", ["A", "B"])]
    professor_specialties := [("P1", ["D"]), ("P2", ["D"])]
    professor_preferred_courses := [], professor_preferred_times := []
    course_preferred_times := [], restricted_times := []
    days_with_hours := [("Mon", (480, 540))]
    course_lecture_durations := [], course_sections_count := [("A", 1), ("B", 1)] }

/-- The generator state after loading `inB`. -/
def stB : GenState := loadData initState inB

/-- `school_days` declares Monday before Tuesday but `days_with_hours`
declares Tuesday first. -/
def inC7 : InputData :=
  { halls := ["H"], school_days := ["Mon", "Tue"], departments := []
    professors := ["P"], courses := ["A"]
    level_courses := [], department_courses := []
    professor_specialties := [], professor_preferred_courses := []
    professor_preferred_times := [], course_preferred_times := []
    restricted_times := []
    days_with_hours := [("Tue", (480, 540)), ("Mon", (480, 540))]
    course_lecture_durations := [], course_sections_count := [("A", 1)] }

/-- The generator state after loading `inC7`. -/
def stC7 : GenState := loadData initState inC7

/-- The course id "A" listed twice with one requested section, and a Monday
long enough for two slots: the course is processed twice and ends up with two
sections, both numbered 1. -/
def inDup : InputData :=
  { halls := ["H"], school_days := ["Mon"], departments := ["D"]
    professors := ["P"], courses := ["A", "A"]
    level_courses := [], department_courses := [("D", ["A"])]
    professor_specialties := [("P", ["D"])]
    professor_preferred_courses := [], professor_preferred_times := []
    course_preferred_times := [], restricted_times := []
    days_with_hours := [("Mon", (480, 605))]
    course_lecture_durations := [], course_sections_count := [("A", 1)] }

/-- The generator state after loading `inDup`. -/
def stDup : GenState := loadData initState inDup

/-- The course id "A" listed twice, two professors, two halls but only one
possible slot: the two sections of "A" land on the same interval. -/
def inDup2 : InputData :=
  { halls := ["H1", "H2"], school_days := ["Mon"], departments := ["D"]
    professors := ["P1", "P2"], courses := ["A", "A"]
    level_courses := [], department_courses := [("D", ["A"])]
    professor_specialties := [("P1", ["D"]), ("P2", ["D"])]
    professor_preferred_courses := [], professor_preferred_times := []
    course_preferred_times := [], restricted_times := []
    days_with_hours := [("Mon", (480, 540))]
    course_lecture_durations := [], course_sections_count := [("A", 1)] }

/-- The generator state after loading `inDup2`. -/
def stDup2 : GenState := loadData initState inDup2

end SchedGen

namespace SchedGen

set_option maxRecDepth 400000



/-- On a state without declared levels every course's level is `none`. -/
theorem findLevel_of_no_levels (st : GenState) (h : st.level_courses = [])
    (c : String) : findLevel st c = none := by
  unfold findLevel
  rw [h]
  rfl

/-- With no level, the composite score is the cast of its rational twin. -/
theorem evaluateCandidate_none_eq (st : GenState) (c : String) (slot : TimeSlot)
    (p hall : String) (sched : List ScheduleSection) :
    evaluateCandidate st c slot p hall sched none =
      ((evaluateCandidateQ st c slot p hall sched : ℚ) : ℝ) := by
  unfold evaluateCandidate evaluateCandidateQ
  push_cast
  norm_num

/-- With no level, the scan step agrees with its rational twin. -/
theorem scanStep_none_eq (st : GenState) (c : String) (sched : List ScheduleSection)
    (a : Option (TimeSlot × String × String)) (q : ℚ) (slot : TimeSlot) :
    scanStep st c none sched (a, (q : ℝ)) slot =
      ((scanStepQ st c sched (a, q) slot).1, ((scanStepQ st c sched (a, q) slot).2 : ℝ)) := by
  unfold scanStep scanStepQ
  cases hfp : findSuitableProfessor st c slot sched with
  | none => rfl
  | some p =>
    cases hfh : findSuitableHall st slot sched with
    | none => rfl
    | some h =>
      simp only [evaluateCandidate_none_eq]
      by_cases hlt : q < evaluateCandidateQ st c slot p h sched
      · rw [if_pos (by exact_mod_cast hlt), if_pos hlt]
      · rw [if_neg (by exact_mod_cast hlt), if_neg hlt]

/-- With no level, the whole scan agrees with its rational twin. -/
theorem scanSlots_none_eq (st : GenState) (c : String) (slots : List TimeSlot)
    (sched : List ScheduleSection) :
    scanSlots st c none slots sched = scanSlotsQ st c slots sched := by
  unfold scanSlots scanSlotsQ
  have key : ∀ (l : List TimeSlot) (a : Option (TimeSlot × String × String)) (q : ℚ),
      (l.foldl (scanStep st c none sched) (a, (q : ℝ))).1 =
        (l.foldl (scanStepQ st c sched) (a, q)).1 := by
    intro l
    induction l with
    | nil => intro a q; rfl
    | cons s rest ih =>
      intro a q
      simp only [List.foldl_cons]
      rw [scanStep_none_eq]
      exact ih _ _
  have h1 : ((-1 : ℝ)) = (((-1 : ℚ) : ℝ)) := by norm_num
  rw [h1]
  exact key slots none (-1)

/-- With no level, the per-course loop agrees with its rational twin. -/
theorem sectionsLoop_none_eq (st : GenState) (c : String) :
    ∀ (rem created : Nat) (slots : List TimeSlot) (sched : List ScheduleSection),
      sectionsLoop st c none created rem slots sched =
        sectionsLoopQ st c created rem slots sched := by
  intro rem
  induction rem with
  | zero => intro created slots sched; rfl
  | succ n ih =>
    intro created slots sched
    unfold sectionsLoop sectionsLoopQ
    rw [scanSlots_none_eq]
    cases hs : scanSlotsQ st c slots sched with
    | none => rfl
    | some t =>
      obtain ⟨slot, p, h⟩ := t
      simp only
      by_cases he : slots.isEmpty
      · rw [if_pos he, if_pos he]
      · rw [if_neg he, if_neg he]
        exact ih _ _ _

/-- On a level-free state the whole pipeline agrees with its rational twin. -/
theorem generateSchedule_eq_q (st : GenState) (h : st.level_courses = []) :
    generateSchedule st = generateScheduleQ st := by
  unfold generateSchedule generateScheduleQ
  have key : ∀ (l : List String) (sched : List ScheduleSection),
      l.foldl (fun sched course_id =>
          sectionsLoop st course_id (findLevel st course_id) 0
            ((st.course_sections_count.lookup course_id).getD 1)
            (generateTimeSlots st course_id) sched) sched =
        l.foldl (fun sched course_id =>
          sectionsLoopQ st course_id 0
            ((st.course_sections_count.lookup course_id).getD 1)
            (generateTimeSlots st course_id) sched) sched := by
    intro l
    induction l with
    | nil => intro sched; rfl
    | cons c rest ih =>
      intro sched
      simp only [List.foldl_cons]
      rw [findLevel_of_no_levels st h, sectionsLoop_none_eq]
      exact ih _
  exact key _ _




theorem stC2_levels : stC2.level_courses = [] := rfl
theorem stB_levels : stB.level_courses = [] := rfl
theorem stDup_levels : stDup.level_courses = [] := rfl
theorem stDup2_levels : stDup2.level_courses = [] := rfl

/-- C2 counterexample: at `inC2`, professor "P" ends with a lone Monday
section (course "A") and teaches on Tuesday, where a feasible same-course slot
(Tuesday 09:05, professor and hall free) exists — yet the output keeps the
section on Monday: no consolidation happens. -/
theorem spec2_c2_cex :
    generate initState inC2 =
      [⟨"A", 1, "P", "H", "Mon", 480, 540⟩, ⟨"B", 1, "P", "H", "Tue", 480, 540⟩] ∧
    (⟨"Tue", 545, 605⟩ : TimeSlot) ∈ generateTimeSlots stC2 "A" ∧
    isProfessorAvailable "P" ⟨"Tue", 545, 605⟩ (generateSchedule stC2) = true ∧
    isHallAvailable "H" ⟨"Tue", 545, 605⟩ (generateSchedule stC2) = true ∧
    ("Mon" : String) ≠ "Tue" := by
  have h0 : generate initState inC2 = (generateSchedule stC2).map sectionToRecord := rfl
  have hq : generateSchedule stC2 = generateScheduleQ stC2 :=
    generateSchedule_eq_q _ stC2_levels
  refine ⟨?_, ?_, ?_, ?_, ?_⟩
  · rw [h0, hq]; with_unfolding_all decide
  · with_unfolding_all decide
  · rw [hq]; with_unfolding_all decide
  · rw [hq]; with_unfolding_all decide
  · decide

/-- C9 counterexample: with course id "A" declared twice, the two sections of
"A" are placed on the very same interval (different professor and hall), so
same-course sections can overlap. -/
theorem spec2_c9_cex :
    generateSchedule stDup2 =
      [⟨"A", 1, "P1", "H1", ⟨"Mon", 480, 540⟩⟩, ⟨"A", 1, "P2", "H2", ⟨"Mon", 480, 540⟩⟩] ∧
    TimeSlot.overlaps ⟨"Mon", 480, 540⟩ ⟨"Mon", 480, 540⟩ = true := by
  have hq : generateSchedule stDup2 = generateScheduleQ stDup2 :=
    generateSchedule_eq_q _ stDup2_levels
  exact ⟨by rw [hq]; with_unfolding_all decide, by decide⟩

/-- C5 counterexample: with course id "A" declared twice, the course receives
2 sections although 1 was requested. -/
theorem spec2_c5_cex :
    countCourse "A" (generateSchedule stDup) = 2 ∧
    (stDup.course_sections_count.lookup "A").getD 1 = 1 := by
  have hq : generateSchedule stDup = generateScheduleQ stDup :=
    generateSchedule_eq_q _ stDup_levels
  exact ⟨by rw [hq]; with_unfolding_all decide, by with_unfolding_all decide⟩

/-- C10 counterexample: with course id "A" declared twice, its two sections
are numbered [1, 1], not 1..k. -/
theorem spec2_c10_cex :
    ((generateSchedule stDup).filter (fun s => s.course_id = "A")).map
        (fun s => s.section_number) = [1, 1] ∧
    ([1, 1] : List Nat) ≠ List.range' 1 2 := by
  have hq : generateSchedule stDup = generateScheduleQ stDup :=
    generateSchedule_eq_q _ stDup_levels
  exact ⟨by rw [hq]; with_unfolding_all decide, by decide⟩

/-- C4 counterexample: a restricted block removes the second candidate slot,
so the kept Monday slots start at 480, 610, 675 — the successive starts 480
and 610 are not `duration + 5 = 65` minutes apart. -/
theorem spec2_c4_cex :
    generateTimeSlots stC4 "A" =
      [⟨"Mon", 480, 540⟩, ⟨"Mon", 610, 670⟩, ⟨"Mon", 675, 735⟩] ∧
    (stC4.course_lecture_durations.lookup "A").getD 60 = 60 ∧
    (610 : Nat) ≠ 480 + (60 + 5) := by
  exact ⟨by with_unfolding_all decide, by with_unfolding_all decide, by decide⟩

/-- C7 counterexample: `school_days` declares Monday before Tuesday, but the
slots come out grouped Tuesday-first, following the `days_with_hours`
declaration order instead. -/
theorem spec2_c7_cex :
    stC7.school_days = ["Mon", "Tue"] ∧
    (generateTimeSlots stC7 "A").map (fun s => s.day) = ["Tue", "Mon"] ∧
    (["Tue", "Mon"] : List String) ≠ ["Mon", "Tue"] := by
  exact ⟨by decide, by with_unfolding_all decide, by decide⟩



/-- C3 counterexample: with three school days and three Monday-morning
sections of a level course, the level-balance sub-score evaluates to
`1 − √2 < 0`, outside [0,1]. -/
theorem spec2_c3_cex : isLevelScheduleBalanced stC3 "L" "A" slotC3 schedC3 < 0 := by
  have hstats : levelBalanceStats stC3 "L" "A" slotC3 schedC3 = ⟨1, 2, 1, 2⟩ := by
    with_unfolding_all decide
  have hmem : ¬ ("A" ∉ getList stC3.level_courses "L") := by
    with_unfolding_all decide
  simp only [isLevelScheduleBalanced, hstats]
  rw [if_neg hmem]
  norm_num
  have hs : (1 : ℝ) < Real.sqrt 2 := by
    have h1 : Real.sqrt 1 < Real.sqrt 2 := by
      apply Real.sqrt_lt_sqrt <;> norm_num
    simpa using h1
  nlinarith [hs]

theorem tp_bounds (st : GenState) (c : String) (slot : TimeSlot) :
    0 ≤ evaluateTimePreference st c slot ∧ evaluateTimePreference st c slot ≤ 1 := by
  cases h : st.course_preferred_times.lookup c with
  | none => simp only [evaluateTimePreference, h]; norm_num
  | some pref =>
    simp only [evaluateTimePreference, h]
    split_ifs <;> norm_num

theorem pp_bounds (st : GenState) (c p : String) (slot : TimeSlot) :
    0 ≤ professorPreferenceScore st c p slot ∧ professorPreferenceScore st c p slot ≤ 1 := by
  simp only [professorPreferenceScore]
  split_ifs <;> norm_num

theorem hu_bounds (st : GenState) (hall : String) (sched : List ScheduleSection) :
    0 ≤ hallUtilizationScore st hall sched ∧ hallUtilizationScore st hall sched ≤ 1 := by
  simp only [hallUtilizationScore]
  split_ifs <;>
    first
      | (norm_num; done)
      | (exact absurd rfl (by assumption))
      | (rename_i hr
         push_neg at hr
         exact ⟨le_sup_left, sup_le (by norm_num) (by linarith)⟩)

theorem gaps_bounds (p : String) (slot : TimeSlot) (sched : List ScheduleSection) :
    0 ≤ gapsScore p slot sched ∧ gapsScore p slot sched ≤ 1 := by
  simp only [gapsScore]
  split_ifs
  · norm_num
  · rcases hm : List.min? _ with _ | m
    · simp only [hm]; norm_num
    · simp only [hm]
      constructor
      · apply le_min _ (by norm_num)
        positivity
      · exact min_le_right _ _



theorem priorityOrder_total (st : GenState) :
    ∀ a b, priorityOrder st a b ∨ priorityOrder st b a := by
  intro a b
  rcases lt_trichotomy (coursePriority st a.2) (coursePriority st b.2) with h | h | h
  · exact Or.inr (Or.inl h)
  · rcases Nat.le_total a.1 b.1 with hi | hi
    · exact Or.inl (Or.inr ⟨h, hi⟩)
    · exact Or.inr (Or.inr ⟨h.symm, hi⟩)
  · exact Or.inl (Or.inl h)

theorem priorityOrder_trans (st : GenState) :
    ∀ a b c, priorityOrder st a b → priorityOrder st b c → priorityOrder st a c := by
  intro a b c hab hbc
  rcases hab with h1 | ⟨h1, h2⟩ <;> rcases hbc with h3 | ⟨h3, h4⟩
  · exact Or.inl (lt_trans h3 h1)
  · exact Or.inl (h3 ▸ h1)
  · exact Or.inl (by rw [h1]; exact h3)
  · exact Or.inr ⟨h1.trans h3, le_trans h2 h4⟩

theorem sortedCoursesIdx_pairwise (st : GenState) :
    (sortedCoursesIdx st).Pairwise (priorityOrder st) := by
  haveI : IsTotal (Nat × String) (priorityOrder st) := ⟨priorityOrder_total st⟩
  haveI : IsTrans (Nat × String) (priorityOrder st) := ⟨priorityOrder_trans st⟩
  exact List.sorted_insertionSort (priorityOrder st) st.courses.enum

theorem sortedCoursesIdx_perm (st : GenState) :
    (sortedCoursesIdx st).Perm st.courses.enum :=
  List.perm_insertionSort (priorityOrder st) st.courses.enum

theorem overlaps_false_of_le (a b : TimeSlot) (h : a.end_time ≤ b.start_time) :
    a.overlaps b = false := by
  simp [TimeSlot.overlaps, h]

theorem overlaps_false_of_ne_day (a b : TimeSlot) (h : a.day ≠ b.day) :
    a.overlaps b = false := by
  simp [TimeSlot.overlaps, h]

theorem overlaps_comm (a b : TimeSlot) : a.overlaps b = b.overlaps a := by
  by_cases hd : a.day = b.day
  · simp [TimeSlot.overlaps, hd, Bool.or_comm]
  · have h1 : (a.day == b.day) = false := beq_eq_false_iff_ne.mpr hd
    have h2 : (b.day == a.day) = false := beq_eq_false_iff_ne.mpr (Ne.symm hd)
    simp [TimeSlot.overlaps, h1, h2]

theorem slotsFrom_mem (r : List TimeSlot) (day : String) (dur endM : Nat) :
    ∀ (fuel cur : Nat) (slot : TimeSlot), slot ∈ slotsFrom r day dur endM fuel cur →
      slot.day = day ∧ slot.end_time = slot.start_time + dur ∧ cur ≤ slot.start_time ∧
        slot.end_time ≤ endM ∧ (∀ t ∈ r, slot.overlaps t = false) ∧
        ∃ k, slot.start_time = cur + k * (dur + 5) := by
  intro fuel
  induction fuel with
  | zero => intro cur slot h; simp [slotsFrom] at h
  | succ n ih =>
    intro cur slot h
    simp only [slotsFrom] at h
    by_cases hc : cur + dur ≤ endM
    · rw [if_pos hc] at h
      rcases List.mem_append.mp h with h1 | h2
      · by_cases hres : r.any (fun t => TimeSlot.overlaps ⟨day, cur, cur + dur⟩ t)
        · rw [if_pos hres] at h1
          simp at h1
        · rw [if_neg hres] at h1
          have hslot : slot = ⟨day, cur, cur + dur⟩ := by simpa using h1
          subst hslot
          refine ⟨rfl, rfl, le_refl _, hc, ?_, 0, by ring⟩
          intro t ht
          rw [List.any_eq_true] at hres
          push_neg at hres
          simpa using hres t ht
      · obtain ⟨hday, hend, hge, hle, hres, k, hk⟩ := ih (cur + dur + 5) slot h2
        refine ⟨hday, hend, ?_, hle, hres, k + 1, ?_⟩
        · omega
        · rw [hk]; ring
    · rw [if_neg hc] at h
      simp at h

theorem generateTimeSlots_mem (st : GenState) (course : String) (slot : TimeSlot)
    (h : slot ∈ generateTimeSlots st course) :
    slot.end_time = slot.start_time + (st.course_lecture_durations.lookup course).getD 60 ∧
      (∀ t ∈ st.restricted_time_slots, slot.overlaps t = false) ∧
      ∃ e ∈ st.days_with_hours, slot.day = e.1 ∧ e.2.1 ≤ slot.start_time ∧
        slot.end_time ≤ e.2.2 ∧
        ∃ k, slot.start_time =
          e.2.1 + k * ((st.course_lecture_durations.lookup course).getD 60 + 5) := by
  unfold generateTimeSlots at h
  obtain ⟨e, he, hmem⟩ := List.mem_flatMap.mp h
  obtain ⟨hday, hend, hge, hle, hres, k, hk⟩ :=
    slotsFrom_mem st.restricted_time_slots e.1
      ((st.course_lecture_durations.lookup course).getD 60) e.2.2 _ _ slot hmem
  exact ⟨hend, hres, e, he, hday, hge.trans (le_of_eq rfl), hle, k, hk⟩

theorem slotsFrom_map_day (r : List TimeSlot) (day : String) (dur endM : Nat) :
    ∀ (fuel cur : Nat),
      (slotsFrom r day dur endM fuel cur).map (fun s => s.day) =
        List.replicate (slotsFrom r day dur endM fuel cur).length day := by
  intro fuel
  induction fuel with
  | zero => intro cur; simp [slotsFrom]
  | succ n ih =>
    intro cur
    simp only [slotsFrom]
    by_cases hc : cur + dur ≤ endM
    · rw [if_pos hc]
      by_cases hres : r.any (fun t => TimeSlot.overlaps ⟨day, cur, cur + dur⟩ t)
      · simpa [hres] using ih (cur + dur + 5)
      · simp only [hres]
        simp [List.replicate_succ, ih (cur + dur + 5)]
    · simp [if_neg hc]

theorem generateTimeSlots_grouped (st : GenState) (course : String) :
    (generateTimeSlots st course).map (fun s => s.day) =
      st.days_with_hours.flatMap
        (fun e => List.replicate
          (slotsForDay st.restricted_time_slots e.1 e.2.1 e.2.2
            ((st.course_lecture_durations.lookup course).getD 60)).length e.1) := by
  unfold generateTimeSlots
  rw [List.map_flatMap]
  congr 1
  funext e
  exact slotsFrom_map_day _ _ _ _ _ _

theorem slotsFrom_pairwise (r : List TimeSlot) (day : String) (dur endM : Nat) :
    ∀ (fuel cur : Nat),
      (slotsFrom r day dur endM fuel cur).Pairwise (fun a b => a.overlaps b = false) := by
  intro fuel
  induction fuel with
  | zero => intro cur; simp [slotsFrom]
  | succ n ih =>
    intro cur
    simp only [slotsFrom]
    by_cases hc : cur + dur ≤ endM
    · rw [if_pos hc]
      apply List.pairwise_append.mpr
      refine ⟨?_, ih (cur + dur + 5), ?_⟩
      · split_ifs <;> simp
      · intro a ha b hb
        have ha' : a = (⟨day, cur, cur + dur⟩ : TimeSlot) := by
          split_ifs at ha
          · simp at ha
          · simpa using ha
        obtain ⟨_, _, hge, _, _, _⟩ := slotsFrom_mem r day dur endM n (cur + dur + 5) b hb
        apply overlaps_false_of_le
        rw [ha']
        show cur + dur ≤ b.start_time
        omega
    · simp [if_neg hc]

theorem generateTimeSlots_pairwise_aux (r : List TimeSlot) (dur : Nat) :
    ∀ (es : List (String × Nat × Nat)), (es.map Prod.fst).Nodup →
      (es.flatMap (fun e => slotsForDay r e.1 e.2.1 e.2.2 dur)).Pairwise
        (fun a b => a.overlaps b = false) := by
  intro es
  induction es with
  | nil => intro _; simp
  | cons e rest ih =>
    intro hnd
    rw [List.map_cons, List.nodup_cons] at hnd
    rw [List.flatMap_cons]
    apply List.pairwise_append.mpr
    refine ⟨slotsFrom_pairwise _ _ _ _ _ _, ih hnd.2, ?_⟩
    intro a ha b hb
    obtain ⟨hada, _, _, _, _, _⟩ := slotsFrom_mem r e.1 dur e.2.2 _ _ a ha
    obtain ⟨e', he', hb'⟩ := List.mem_flatMap.mp hb
    obtain ⟨hbdb, _, _, _, _, _⟩ := slotsFrom_mem r e'.1 dur e'.2.2 _ _ b hb'
    apply overlaps_false_of_ne_day
    rw [hada, hbdb]
    intro hcontra
    exact hnd.1 (hcontra ▸ List.mem_map_of_mem Prod.fst he')

theorem generateTimeSlots_pairwise (st : GenState) (course : String)
    (h : (st.days_with_hours.map Prod.fst).Nodup) :
    (generateTimeSlots st course).Pairwise (fun a b => a.overlaps b = false) := by
  unfold generateTimeSlots
  exact generateTimeSlots_pairwise_aux _ _ _ h



theorem pickTopScored_fold_mem :
    ∀ (l : List (String × Int)) (acc : Option (String × Int)) (x : String × Int),
      List.foldl
        (fun best cand =>
          match best with
          | none => some cand
          | some b => if b.2 < cand.2 then some cand else some b) acc l = some x →
      x ∈ l ∨ acc = some x := by
  intro l
  induction l with
  | nil => intro acc x h; exact Or.inr h
  | cons a rest ih =>
    intro acc x h
    rw [List.foldl_cons] at h
    rcases ih _ x h with hmem | hacc
    · exact Or.inl (List.mem_cons_of_mem a hmem)
    · cases acc with
      | none =>
        have : a = x := by simpa using hacc
        exact Or.inl (this ▸ List.mem_cons_self a rest)
      | some b =>
        by_cases hlt : b.2 < a.2
        · have : a = x := by simpa [hlt] using hacc
          exact Or.inl (this ▸ List.mem_cons_self a rest)
        · have : b = x := by simpa [hlt] using hacc
          exact Or.inr (by rw [this])

theorem pickTopScored_mem (l : List (String × Int)) (p : String)
    (h : pickTopScored l = some p) : ∃ sc, (p, sc) ∈ l := by
  unfold pickTopScored at h
  obtain ⟨x, hx, hx1⟩ := Option.map_eq_some'.mp h
  rcases pickTopScored_fold_mem l none x hx with hmem | habs
  · exact ⟨x.2, by rw [← hx1]; exact hmem⟩
  · exact absurd habs (by simp)

theorem pickLeastUsed_fold_mem :
    ∀ (l : List (String × Nat)) (acc : Option (String × Nat)) (x : String × Nat),
      List.foldl
        (fun best cand =>
          match best with
          | none => some cand
          | some b => if cand.2 < b.2 then some cand else some b) acc l = some x →
      x ∈ l ∨ acc = some x := by
  intro l
  induction l with
  | nil => intro acc x h; exact Or.inr h
  | cons a rest ih =>
    intro acc x h
    rw [List.foldl_cons] at h
    rcases ih _ x h with hmem | hacc
    · exact Or.inl (List.mem_cons_of_mem a hmem)
    · cases acc with
      | none =>
        have : a = x := by simpa using hacc
        exact Or.inl (this ▸ List.mem_cons_self a rest)
      | some b =>
        by_cases hlt : a.2 < b.2
        · have : a = x := by simpa [hlt] using hacc
          exact Or.inl (this ▸ List.mem_cons_self a rest)
        · have : b = x := by simpa [hlt] using hacc
          exact Or.inr (by rw [this])

theorem pickLeastUsed_mem (l : List (String × Nat)) (p : String)
    (h : pickLeastUsed l = some p) : ∃ u, (p, u) ∈ l := by
  unfold pickLeastUsed at h
  obtain ⟨x, hx, hx1⟩ := Option.map_eq_some'.mp h
  rcases pickLeastUsed_fold_mem l none x hx with hmem | habs
  · exact ⟨x.2, by rw [← hx1]; exact hmem⟩
  · exact absurd habs (by simp)

/-- A professor returned by `_find_suitable_professor` passed the availability
filter against the schedule it was queried with. -/
theorem findSuitableProfessor_available (st : GenState) (c : String) (slot : TimeSlot)
    (sched : List ScheduleSection) (p : String)
    (h : findSuitableProfessor st c slot sched = some p) :
    isProfessorAvailable p slot sched = true := by
  unfold findSuitableProfessor at h
  obtain ⟨sc, hmem⟩ := pickTopScored_mem _ _ h
  obtain ⟨q, _, hq⟩ := List.mem_filterMap.mp hmem
  by_cases hav : isProfessorAvailable q slot sched = true
  · rw [if_pos hav] at hq
    have hqp : q = p := congrArg Prod.fst (Option.some.inj hq)
    rw [← hqp]
    exact hav
  · rw [if_neg hav] at hq
    exact absurd hq (by simp)



/-- A hall returned by `_find_suitable_hall` passed the availability filter. -/
theorem findSuitableHall_available (st : GenState) (slot : TimeSlot)
    (sched : List ScheduleSection) (hall : String)
    (h : findSuitableHall st slot sched = some hall) :
    isHallAvailable hall slot sched = true := by
  unfold findSuitableHall at h
  obtain ⟨u, hmem⟩ := pickLeastUsed_mem _ _ h
  obtain ⟨q, _, hq⟩ := List.mem_filterMap.mp hmem
  by_cases hav : isHallAvailable q slot sched = true
  · rw [if_pos hav] at hq
    have hqp : q = hall := congrArg Prod.fst (Option.some.inj hq)
    rw [← hqp]
    exact hav
  · rw [if_neg hav] at hq
    exact absurd hq (by simp)

/-- Unfolding of professor availability. -/
theorem isProfessorAvailable_iff (p : String) (slot : TimeSlot)
    (sched : List ScheduleSection) :
    isProfessorAvailable p slot sched = true ↔
      ∀ s ∈ sched, s.professor_id = p → s.time_slot.overlaps slot = false := by
  unfold isProfessorAvailable
  simp [List.any_eq_true]

/-- Unfolding of hall availability. -/
theorem isHallAvailable_iff (hall : String) (slot : TimeSlot)
    (sched : List ScheduleSection) :
    isHallAvailable hall slot sched = true ↔
      ∀ s ∈ sched, s.hall_id = hall → s.time_slot.overlaps slot = false := by
  unfold isHallAvailable
  simp [List.any_eq_true]

/-- Whatever the scan returns came from the slot list and passed both
selection functions against the scanned schedule. -/
theorem scanSlots_fold_sound (st : GenState) (c : String) (lvl : Option String)
    (sched : List ScheduleSection) :
    ∀ (slots : List TimeSlot) (acc : Option (TimeSlot × String × String) × ℝ)
      (slot : TimeSlot) (p h : String),
      (slots.foldl (scanStep st c lvl sched) acc).1 = some (slot, p, h) →
      acc.1 = some (slot, p, h) ∨
        (slot ∈ slots ∧ findSuitableProfessor st c slot sched = some p ∧
          findSuitableHall st slot sched = some h) := by
  intro slots
  induction slots with
  | nil => intro acc slot p h hr; exact Or.inl hr
  | cons s rest ih =>
    intro acc slot p h hr
    rw [List.foldl_cons] at hr
    rcases ih _ slot p h hr with hacc | hrest
    · -- came out of the one-step accumulator
      unfold scanStep at hacc
      cases hfp : findSuitableProfessor st c s sched with
      | none => simp only [hfp] at hacc; exact Or.inl hacc
      | some p0 =>
        simp only [hfp] at hacc
        cases hfh : findSuitableHall st s sched with
        | none => simp only [hfh] at hacc; exact Or.inl hacc
        | some h0 =>
          simp only [hfh] at hacc
          by_cases hlt : acc.2 < evaluateCandidate st c s p0 h0 sched lvl
          · rw [if_pos hlt] at hacc
            have he : s = slot ∧ p0 = p ∧ h0 = h := by
              simpa using hacc
            refine Or.inr ⟨?_, ?_, ?_⟩
            · rw [← he.1]; exact List.mem_cons_self s rest
            · rw [← he.1, ← he.2.1]; exact hfp
            · rw [← he.1, ← he.2.2]; exact hfh
          · rw [if_neg hlt] at hacc
            exact Or.inl hacc
    · exact Or.inr ⟨List.mem_cons_of_mem s hrest.1, hrest.2⟩

/-- Scan soundness at the top level. -/
theorem scanSlots_sound (st : GenState) (c : String) (lvl : Option String)
    (slots : List TimeSlot) (sched : List ScheduleSection)
    (slot : TimeSlot) (p h : String)
    (hr : scanSlots st c lvl slots sched = some (slot, p, h)) :
    slot ∈ slots ∧ findSuitableProfessor st c slot sched = some p ∧
      findSuitableHall st slot sched = some h := by
  unfold scanSlots at hr
  rcases scanSlots_fold_sound st c lvl sched slots _ slot p h hr with habs | hok
  · exact absurd habs (by simp)
  · exact hok



/-- Decomposition of the per-course loop: it only appends, every appended
section carries the processed course id, section numbers continue
`created+1, created+2, …` in creation order, and at most `rem` sections are
appended. -/
theorem sectionsLoop_spec (st : GenState) (c : String) (lvl : Option String) :
    ∀ (rem created : Nat) (slots : List TimeSlot) (sched : List ScheduleSection),
      ∃ delta,
        sectionsLoop st c lvl created rem slots sched = sched ++ delta ∧
        (∀ s ∈ delta, s.course_id = c) ∧
        delta.map (fun s => s.section_number) = List.range' (created + 1) delta.length ∧
        delta.length ≤ rem := by
  intro rem
  induction rem with
  | zero =>
    intro created slots sched
    exact ⟨[], by simp [sectionsLoop], by simp, by simp, by simp⟩
  | succ n ih =>
    intro created slots sched
    by_cases he : slots.isEmpty
    · refine ⟨[], ?_, by simp, by simp, by simp⟩
      simp [sectionsLoop, he]
    · cases hs : scanSlots st c lvl slots sched with
      | none =>
        refine ⟨[], ?_, by simp, by simp, by simp⟩
        simp [sectionsLoop, he, hs]
      | some t =>
        obtain ⟨slot, p, h⟩ := t
        obtain ⟨delta, hd1, hd2, hd3, hd4⟩ :=
          ih (created + 1) (slots.erase slot) (sched ++ [⟨c, created + 1, p, h, slot⟩])
        refine ⟨⟨c, created + 1, p, h, slot⟩ :: delta, ?_, ?_, ?_, ?_⟩
        · have hstep : sectionsLoop st c lvl created (n + 1) slots sched =
            sectionsLoop st c lvl (created + 1) n (slots.erase slot)
              (sched ++ [⟨c, created + 1, p, h, slot⟩]) := by
            simp [sectionsLoop, he, hs]
          rw [hstep, hd1]
          simp
        · intro s hsmem
          rcases List.mem_cons.mp hsmem with h1 | h1
          · rw [h1]
          · exact hd2 s h1
        · simp only [List.map_cons, hd3, List.length_cons]
          rw [List.range'_succ]
        · simpa using Nat.succ_le_succ hd4

/-- The per-course loop preserves the no-double-booking invariant: every new
section passed the professor and hall availability checks against the very
schedule it is appended to. -/
theorem sectionsLoop_pairwise (st : GenState) (c : String) (lvl : Option String) :
    ∀ (rem created : Nat) (slots : List TimeSlot) (sched : List ScheduleSection),
      sched.Pairwise noClash →
      (sectionsLoop st c lvl created rem slots sched).Pairwise noClash := by
  intro rem
  induction rem with
  | zero => intro created slots sched hp; exact hp
  | succ n ih =>
    intro created slots sched hp
    by_cases he : slots.isEmpty
    · simpa [sectionsLoop, he] using hp
    · cases hs : scanSlots st c lvl slots sched with
      | none => simpa [sectionsLoop, he, hs] using hp
      | some t =>
        obtain ⟨slot, p, h⟩ := t
        obtain ⟨_, hfp, hfh⟩ := scanSlots_sound st c lvl slots sched slot p h hs
        have havp := (isProfessorAvailable_iff p slot sched).mp
          (findSuitableProfessor_available st c slot sched p hfp)
        have havh := (isHallAvailable_iff h slot sched).mp
          (findSuitableHall_available st slot sched h hfh)
        have hstep : sectionsLoop st c lvl created (n + 1) slots sched =
            sectionsLoop st c lvl (created + 1) n (slots.erase slot)
              (sched ++ [⟨c, created + 1, p, h, slot⟩]) := by
          simp [sectionsLoop, he, hs]
        rw [hstep]
        apply ih
        apply List.pairwise_append.mpr
        refine ⟨hp, by simp, ?_⟩
        intro a ha b hb
        have hb' : b = ⟨c, created + 1, p, h, slot⟩ := by simpa using hb
        rw [hb']
        exact ⟨fun hpe => havp a ha hpe, fun hhe => havh a ha hhe⟩

/-- The per-course loop keeps the slots of this course's sections pairwise
non-overlapping: each consumed slot is removed from the remaining candidates,
and the invariant tracks the combined list. -/
theorem sectionsLoop_course_slots (st : GenState) (c : String) (lvl : Option String) :
    ∀ (rem created : Nat) (slots : List TimeSlot) (sched : List ScheduleSection),
      (((sched.filter (fun s => s.course_id == c)).map (fun s => s.time_slot)) ++
        slots).Pairwise (fun a b => a.overlaps b = false) →
      (((sectionsLoop st c lvl created rem slots sched).filter
          (fun s => s.course_id == c)).map (fun s => s.time_slot)).Pairwise
        (fun a b => a.overlaps b = false) := by
  intro rem
  induction rem with
  | zero =>
    intro created slots sched hp
    exact (List.pairwise_append.mp hp).1
  | succ n ih =>
    intro created slots sched hp
    by_cases he : slots.isEmpty
    · simpa [sectionsLoop, he] using (List.pairwise_append.mp hp).1
    · cases hs : scanSlots st c lvl slots sched with
      | none =>
        simpa [sectionsLoop, he, hs] using (List.pairwise_append.mp hp).1
      | some t =>
        obtain ⟨slot, p, h⟩ := t
        obtain ⟨hmem, _, _⟩ := scanSlots_sound st c lvl slots sched slot p h hs
        have hstep : sectionsLoop st c lvl created (n + 1) slots sched =
            sectionsLoop st c lvl (created + 1) n (slots.erase slot)
              (sched ++ [⟨c, created + 1, p, h, slot⟩]) := by
          simp [sectionsLoop, he, hs]
        rw [hstep]
        apply ih
        have hf : ((sched ++ [(⟨c, created + 1, p, h, slot⟩ : ScheduleSection)]).filter
            (fun s => s.course_id == c)).map (fun s => s.time_slot) =
            ((sched.filter (fun s => s.course_id == c)).map (fun s => s.time_slot)) ++
              [slot] := by
          simp
        rw [hf]
        have hperm : (((sched.filter (fun s => s.course_id == c)).map
              (fun s => s.time_slot)) ++ ([slot] ++ slots.erase slot)).Perm
            ((((sched.filter (fun s => s.course_id == c)).map
              (fun s => s.time_slot)) ++ slots)) :=
          List.Perm.append_left _ (List.perm_cons_erase hmem).symm
        have hsymm : Symmetric (fun a b : TimeSlot => a.overlaps b = false) := by
          intro a b hab
          rw [overlaps_comm]
          exact hab
        rw [List.append_assoc]
        exact (hperm.pairwise_iff @hsymm).mpr hp



/-- Processing courses other than `c` leaves `c`'s sections untouched. -/
theorem foldl_filter_ne
    (body : List ScheduleSection → String → List ScheduleSection)
    (hbody : ∀ sched course, ∃ delta,
      body sched course = sched ++ delta ∧ ∀ s ∈ delta, s.course_id = course) :
    ∀ (l : List String) (sched : List ScheduleSection) (c : String), c ∉ l →
      (l.foldl body sched).filter (fun s => s.course_id == c) =
        sched.filter (fun s => s.course_id == c) := by
  intro l
  induction l with
  | nil => intro sched c _; rfl
  | cons a rest ih =>
    intro sched c hc
    have hca : c ≠ a := fun hca => hc (hca ▸ List.mem_cons_self a rest)
    have hcr : c ∉ rest := fun hcr => hc (List.mem_cons_of_mem a hcr)
    rw [List.foldl_cons, ih _ c hcr]
    obtain ⟨delta, hd1, hd2⟩ := hbody sched a
    rw [hd1, List.filter_append]
    have hnil : delta.filter (fun s => s.course_id == c) = [] := by
      apply List.filter_eq_nil_iff.mpr
      intro s hsmem
      rw [hd2 s hsmem]
      simpa using (Ne.symm hca)
    rw [hnil, List.append_nil]

/-- The body of the course fold in `generate_schedule`. -/
theorem generateSchedule_body_spec (st : GenState) :
    ∀ sched course, ∃ delta,
      sectionsLoop st course (findLevel st course) 0
          ((st.course_sections_count.lookup course).getD 1)
          (generateTimeSlots st course) sched = sched ++ delta ∧
        ∀ s ∈ delta, s.course_id = course := by
  intro sched course
  obtain ⟨delta, hd1, hd2, _, _⟩ :=
    sectionsLoop_spec st course (findLevel st course)
      ((st.course_sections_count.lookup course).getD 1) 0
      (generateTimeSlots st course) sched
  exact ⟨delta, hd1, hd2⟩

/-- `sorted_courses` is a permutation of the declared course list. -/
theorem sortedCourses_perm (st : GenState) : (sortedCourses st).Perm st.courses := by
  unfold sortedCourses
  have h := (sortedCoursesIdx_perm st).map Prod.snd
  rwa [List.enum_map_snd] at h

/-- The sections of course `c` in the generated schedule, when course ids are
distinct: numbered `1..k` in creation order, at most the requested number of
them, and (when the operating-hours days are distinct) on pairwise
non-overlapping slots. -/
theorem generateSchedule_course (st : GenState) (hnd : st.courses.Nodup) (c : String) :
    ((generateSchedule st).filter (fun s => s.course_id == c)).map
        (fun s => s.section_number) =
      List.range' 1 ((generateSchedule st).filter (fun s => s.course_id == c)).length ∧
    ((generateSchedule st).filter (fun s => s.course_id == c)).length ≤
      (st.course_sections_count.lookup c).getD 1 ∧
    ((st.days_with_hours.map Prod.fst).Nodup →
      (((generateSchedule st).filter (fun s => s.course_id == c)).map
          (fun s => s.time_slot)).Pairwise (fun a b => a.overlaps b = false)) := by
  have hnd' : (sortedCourses st).Nodup := ((sortedCourses_perm st).nodup_iff).mpr hnd
  by_cases hc : c ∈ sortedCourses st
  · obtain ⟨l1, l2, hsplit⟩ := List.append_of_mem hc
    have hnod := hsplit ▸ hnd'
    have hcl1 : c ∉ l1 := by
      rcases List.nodup_append.mp hnod with ⟨_, _, hdisj⟩
      intro hmem
      exact hdisj hmem (List.mem_cons_self c l2)
    have hcl2 : c ∉ l2 := by
      rcases List.nodup_append.mp hnod with ⟨_, hn2, _⟩
      exact (List.nodup_cons.mp hn2).1
    unfold generateSchedule
    rw [hsplit, List.foldl_append, List.foldl_cons]
    have hA : ∀ (A : List ScheduleSection),
        A.filter (fun s => s.course_id == c) = [] →
        ∃ delta,
          (l2.foldl (fun sched course_id =>
              sectionsLoop st course_id (findLevel st course_id) 0
                ((st.course_sections_count.lookup course_id).getD 1)
                (generateTimeSlots st course_id) sched)
            (sectionsLoop st c (findLevel st c) 0
              ((st.course_sections_count.lookup c).getD 1)
              (generateTimeSlots st c) A)).filter (fun s => s.course_id == c) = delta ∧
          delta.map (fun s => s.section_number) = List.range' 1 delta.length ∧
          delta.length ≤ (st.course_sections_count.lookup c).getD 1 ∧
          (((A.filter (fun s => s.course_id == c)).map (fun s => s.time_slot) ++
              generateTimeSlots st c).Pairwise (fun a b => a.overlaps b = false) →
            (delta.map (fun s => s.time_slot)).Pairwise
              (fun a b => a.overlaps b = false)) := by
      intro A hAnil
      obtain ⟨delta, hd1, hd2, hd3, hd4⟩ :=
        sectionsLoop_spec st c (findLevel st c)
          ((st.course_sections_count.lookup c).getD 1) 0 (generateTimeSlots st c) A
      have hdelta_filter : delta.filter (fun s => s.course_id == c) = delta := by
        apply List.filter_eq_self.mpr
        intro s hsm
        rw [hd2 s hsm]
        simp
      have hfilter1 : (sectionsLoop st c (findLevel st c) 0
            ((st.course_sections_count.lookup c).getD 1)
            (generateTimeSlots st c) A).filter (fun s => s.course_id == c) = delta := by
        rw [hd1, List.filter_append, hAnil, hdelta_filter, List.nil_append]
      refine ⟨delta, ?_, ?_, hd4, ?_⟩
      · rw [foldl_filter_ne _ (generateSchedule_body_spec st) l2 _ c hcl2, hfilter1]
      · simpa using hd3
      · intro hpair
        have := sectionsLoop_course_slots st c (findLevel st c)
          ((st.course_sections_count.lookup c).getD 1) 0 (generateTimeSlots st c) A hpair
        rwa [hfilter1] at this
    have hAnil : (l1.foldl (fun sched course_id =>
        sectionsLoop st course_id (findLevel st course_id) 0
          ((st.course_sections_count.lookup course_id).getD 1)
          (generateTimeSlots st course_id) sched) []).filter
        (fun s => s.course_id == c) = [] := by
      rw [foldl_filter_ne _ (generateSchedule_body_spec st) l1 _ c hcl1]
      rfl
    obtain ⟨delta, hres, hnum, hlen, hpw⟩ := hA _ hAnil
    rw [hres]
    refine ⟨hnum, hlen, ?_⟩
    intro hdays
    apply hpw
    rw [hAnil]
    simpa using generateTimeSlots_pairwise st c hdays
  · unfold generateSchedule
    rw [foldl_filter_ne _ (generateSchedule_body_spec st) _ _ c hc]
    simp




/-- The full greedy pass never double-books a professor or a hall. -/
theorem generateSchedule_pairwise (st : GenState) :
    (generateSchedule st).Pairwise noClash := by
  unfold generateSchedule
  have key : ∀ (l : List String) (sched : List ScheduleSection), sched.Pairwise noClash →
      (l.foldl (fun sched course_id =>
          sectionsLoop st course_id (findLevel st course_id) 0
            ((st.course_sections_count.lookup course_id).getD 1)
            (generateTimeSlots st course_id) sched) sched).Pairwise noClash := by
    intro l
    induction l with
    | nil => intro sched hp; exact hp
    | cons a rest ih =>
      intro sched hp
      rw [List.foldl_cons]
      exact ih _ (sectionsLoop_pairwise st a (findLevel st a) _ _ _ _ hp)
  exact key _ [] (by simp)

/-- Per-course pairwise facts transfer to the whole schedule. -/
theorem pairwise_of_filter_course :
    ∀ (l : List ScheduleSection),
      (∀ c, ((l.filter (fun s => s.course_id == c)).map
          (fun s => s.time_slot)).Pairwise (fun a b => a.overlaps b = false)) →
      l.Pairwise (fun a b =>
        a.course_id = b.course_id → a.time_slot.overlaps b.time_slot = false) := by
  intro l
  induction l with
  | nil => intro _; exact List.Pairwise.nil
  | cons a t ih =>
    intro h
    constructor
    · intro b hb hcourse
      have ha := h a.course_id
      rw [List.filter_cons_of_pos (by simp)] at ha
      rw [List.map_cons] at ha
      have hbf : b ∈ t.filter (fun s => s.course_id == a.course_id) :=
        List.mem_filter.mpr ⟨hb, by simp [hcourse]⟩
      exact (List.pairwise_cons.mp ha).1 b.time_slot
        (List.mem_map_of_mem (fun s => s.time_slot) hbf)
    · apply ih
      intro c
      have hc := h c
      by_cases hac : a.course_id == c
      · simp only [List.filter_cons, hac, if_true, List.map_cons] at hc
        exact (List.pairwise_cons.mp hc).2
      · have hac' : (a.course_id == c) = false := by simpa using hac
        simpa only [List.filter_cons, hac', Bool.false_eq_true, if_false] using hc




/-- C1: in the output of `generate`, no two records share a professor or a
hall with overlapping (same-day, intersecting half-open) intervals. -/
theorem spec2_c1_no_double_booking (g : GenState) (d : InputData) :
    (generate g d).Pairwise recordNoClash := by
  unfold generate generateOut
  exact List.Pairwise.map sectionToRecord (fun a b hab => hab)
    (generateSchedule_pairwise (loadData g d))

/-- C8: `generate` is deterministic — two calls with the same input yield the
same output list, whatever state each generator instance holds, because
`load_data` overwrites every field. -/
theorem spec2_c8_deterministic (g1 g2 : GenState) (d : InputData) :
    generate g1 d = generate g2 d := rfl

/-- C2 (amended): no consolidation pass runs after generation — `generate`
returns exactly the serialization of `generate_schedule`'s sections, each
keeping its day, hall and times. -/
theorem spec2_c2_no_consolidation (g : GenState) (d : InputData) :
    generate g d = (generateSchedule (loadData g d)).map sectionToRecord ∧
    (generate g d).map (fun r => r.day) =
      (generateSchedule (loadData g d)).map (fun s => s.time_slot.day) ∧
    (generate g d).map (fun r => r.hall_id) =
      (generateSchedule (loadData g d)).map (fun s => s.hall_id) ∧
    (generate g d).map (fun r => (r.start_time, r.end_time)) =
      (generateSchedule (loadData g d)).map
        (fun s => (s.time_slot.start_time, s.time_slot.end_time)) := by
  refine ⟨rfl, ?_, ?_, ?_⟩ <;>
    simp [generate, generateOut, sectionToRecord, List.map_map, Function.comp]

/-- C3 (amended): the time-preference, professor-preference, hall-utilization
and gaps sub-scores all lie in [0,1], and the composite score is exactly the
0.20/0.25/0.20/0.15/0.10/0.10 convex combination of the six sub-scores (the
distribution and level-balance sub-scores are not bounded; see the
counterexample). -/
theorem spec2_c3_scores (st : GenState) (c : String) (slot : TimeSlot)
    (p hall : String) (sched : List ScheduleSection) (lvl : Option String) :
    (0 ≤ evaluateTimePreference st c slot ∧ evaluateTimePreference st c slot ≤ 1) ∧
    (0 ≤ professorPreferenceScore st c p slot ∧
      professorPreferenceScore st c p slot ≤ 1) ∧
    (0 ≤ hallUtilizationScore st hall sched ∧ hallUtilizationScore st hall sched ≤ 1) ∧
    (0 ≤ gapsScore p slot sched ∧ gapsScore p slot sched ≤ 1) ∧
    evaluateCandidate st c slot p hall sched lvl =
      0.20 * (evaluateTimePreference st c slot : ℝ) +
        0.25 * (areSectionsWellDistributed st c slot sched : ℝ) +
        0.20 * (match lvl with
          | some lv => isLevelScheduleBalanced st lv c slot sched
          | none => (0.5 : ℝ)) +
        0.15 * (professorPreferenceScore st c p slot : ℝ) +
        0.10 * (hallUtilizationScore st hall sched : ℝ) +
        0.10 * (gapsScore p slot sched : ℝ) :=
  ⟨tp_bounds st c slot, pp_bounds st c p slot, hu_bounds st hall sched,
    gaps_bounds p slot sched, rfl⟩

/-- C4 (amended): every generated slot has exactly the course's lecture
duration (default 60), overlaps no restricted interval, and lies inside the
operating window of one of the declared days, starting on the grid
`opening + k·(duration+5)` (successive kept slots need not be exactly
`duration+5` apart when a restricted slot was skipped; see the
counterexample). -/
theorem spec2_c4_slot_properties (st : GenState) (course : String) (slot : TimeSlot)
    (h : slot ∈ generateTimeSlots st course) :
    slot.end_time = slot.start_time +
      (st.course_lecture_durations.lookup course).getD 60 ∧
    (∀ t ∈ st.restricted_time_slots, slot.overlaps t = false) ∧
    ∃ e ∈ st.days_with_hours, slot.day = e.1 ∧ e.2.1 ≤ slot.start_time ∧
      slot.end_time ≤ e.2.2 ∧
      ∃ k, slot.start_time =
        e.2.1 + k * ((st.course_lecture_durations.lookup course).getD 60 + 5) :=
  generateTimeSlots_mem st course slot h

/-- Witness for C4 at a concrete slot of `stC4`. -/
theorem spec2_c4_witness :
    (⟨"Mon", 480, 540⟩ : TimeSlot) ∈ generateTimeSlots stC4 "A" ∧
    ((⟨"Mon", 480, 540⟩ : TimeSlot).end_time = (⟨"Mon", 480, 540⟩ : TimeSlot).start_time +
        (stC4.course_lecture_durations.lookup "A").getD 60 ∧
      (∀ t ∈ stC4.restricted_time_slots,
        (⟨"Mon", 480, 540⟩ : TimeSlot).overlaps t = false) ∧
      ∃ e ∈ stC4.days_with_hours, (⟨"Mon", 480, 540⟩ : TimeSlot).day = e.1 ∧
        e.2.1 ≤ (⟨"Mon", 480, 540⟩ : TimeSlot).start_time ∧
        (⟨"Mon", 480, 540⟩ : TimeSlot).end_time ≤ e.2.2 ∧
        ∃ k, (⟨"Mon", 480, 540⟩ : TimeSlot).start_time =
          e.2.1 + k * ((stC4.course_lecture_durations.lookup "A").getD 60 + 5)) :=
  ⟨by with_unfolding_all decide,
    spec2_c4_slot_properties stC4 "A" ⟨"Mon", 480, 540⟩ (by with_unfolding_all decide)⟩

/-- C5 (amended): with distinct course ids, every course receives at most its
requested number of sections, and all declared courses are processed
(`sorted_courses` is a permutation of the declared list; an unschedulable
course simply stops early and the fold continues with the rest). -/
theorem spec2_c5_bounded (st : GenState) (h : st.courses.Nodup) :
    (∀ c, countCourse c (generateSchedule st) ≤
      (st.course_sections_count.lookup c).getD 1) ∧
    (sortedCourses st).Perm st.courses := by
  refine ⟨?_, sortedCourses_perm st⟩
  intro c
  have hb := (generateSchedule_course st h c).2.1
  rwa [countCourse, List.countP_eq_length_filter]

/-- Witness for C5 at the Scenario-B instance. -/
theorem spec2_c5_witness :
    stB.courses.Nodup ∧
    ((∀ c, countCourse c (generateSchedule stB) ≤
        (stB.course_sections_count.lookup c).getD 1) ∧
      (sortedCourses stB).Perm stB.courses) :=
  ⟨by with_unfolding_all decide, spec2_c5_bounded stB (by with_unfolding_all decide)⟩

/-- C6: courses are processed in descending priority with ties broken by
declaration order — the processing order is sorted for `priorityOrder`
(priority strictly greater first, equal priorities by declaration index) and
is a permutation of the indexed declaration list — and on Scenario B exactly
one section is produced, for the first-declared of the two equal-priority
courses. -/
theorem spec2_c6_priority (st : GenState) :
    (sortedCoursesIdx st).Pairwise (priorityOrder st) ∧
    (sortedCoursesIdx st).Perm st.courses.enum ∧
    sortedCourses st = (sortedCoursesIdx st).map Prod.snd ∧
    generate initState inB = [⟨"A", 1, "P1", "H", "Mon", 480, 540⟩] := by
  refine ⟨sortedCoursesIdx_pairwise st, sortedCoursesIdx_perm st, rfl, ?_⟩
  have h0 : generate initState inB = (generateSchedule stB).map sectionToRecord := rfl
  have hq : generateSchedule stB = generateScheduleQ stB :=
    generateSchedule_eq_q _ stB_levels
  rw [h0, hq]
  with_unfolding_all decide

/-- C7 (amended): slot generation is a pure function that iterates the days in
`days_with_hours` declaration order (not `school_days` order): the generated
slots appear grouped by day, one block per `days_with_hours` entry, in that
order. -/
theorem spec2_c7_day_order (st : GenState) (course : String) :
    (generateTimeSlots st course).map (fun s => s.day) =
      st.days_with_hours.flatMap
        (fun e => List.replicate
          (slotsForDay st.restricted_time_slots e.1 e.2.1 e.2.2
            ((st.course_lecture_durations.lookup course).getD 60)).length e.1) :=
  generateTimeSlots_grouped st course

/-- C9 (amended): with distinct course ids (and the distinct operating-day
keys a Python dict guarantees), any two same-course sections have
non-overlapping intervals, and each course's candidate slots are pairwise
non-overlapping. -/
theorem spec2_c9_same_course (st : GenState)
    (hcourses : st.courses.Nodup)
    (hdays : (st.days_with_hours.map Prod.fst).Nodup) :
    (generateSchedule st).Pairwise (fun a b =>
      a.course_id = b.course_id → a.time_slot.overlaps b.time_slot = false) ∧
    ∀ c, (generateTimeSlots st c).Pairwise (fun a b => a.overlaps b = false) := by
  refine ⟨?_, fun c => generateTimeSlots_pairwise st c hdays⟩
  apply pairwise_of_filter_course
  intro c
  exact (generateSchedule_course st hcourses c).2.2 hdays

/-- Witness for C9 at the Scenario-B instance. -/
theorem spec2_c9_witness :
    stB.courses.Nodup ∧ (stB.days_with_hours.map Prod.fst).Nodup ∧
    ((generateSchedule stB).Pairwise (fun a b =>
        a.course_id = b.course_id → a.time_slot.overlaps b.time_slot = false) ∧
      ∀ c, (generateTimeSlots stB c).Pairwise (fun a b => a.overlaps b = false)) :=
  ⟨by with_unfolding_all decide, by with_unfolding_all decide,
    spec2_c9_same_course stB (by with_unfolding_all decide)
      (by with_unfolding_all decide)⟩

/-- C10 (amended): with distinct course ids, a course receiving k sections has
them numbered exactly 1..k in creation order, and the serialized output is the
section list in order, one record per section with exactly the serialized
fields. -/
theorem spec2_c10_numbering (st : GenState) (h : st.courses.Nodup) :
    (∀ c, ((generateSchedule st).filter (fun s => s.course_id == c)).map
        (fun s => s.section_number) =
      List.range' 1 (countCourse c (generateSchedule st))) ∧
    generateOut st = (generateSchedule st).map sectionToRecord := by
  refine ⟨?_, rfl⟩
  intro c
  have h1 := (generateSchedule_course st h c).1
  rwa [countCourse, List.countP_eq_length_filter]

/-- Witness for C10 at the Scenario-B instance. -/
theorem spec2_c10_witness :
    stB.courses.Nodup ∧
    ((∀ c, ((generateSchedule stB).filter (fun s => s.course_id == c)).map
        (fun s => s.section_number) =
      List.range' 1 (countCourse c (generateSchedule stB))) ∧
      generateOut stB = (generateSchedule stB).map sectionToRecord) :=
  ⟨by with_unfolding_all decide, spec2_c10_numbering stB (by with_unfolding_all decide)⟩


end SchedGen
